import Mathlib

/-!
Verification development for the KassutronicsQuantizer firmware core
(files KassutronicsQuantizer.ino, Core.ino, Quantize.ino, Hardware.ino,
hardware.h, UI.ino, SaveRecall.ino).

Shallow embedding conventions:
* C `byte` (uint8_t) values are `Nat` kept below 256 by explicit `% 256`
  (or `Int.emod 256` when produced from signed arithmetic);
* C `int` (16-bit signed on AVR) is `Int` where the firmware's quantities
  stay far from the int16 boundaries; the one computation that reaches the
  boundary is the product inside `intmap`, so there every intermediate is
  truncated explicitly to a signed 16-bit value with `wrap16`;
* C `unsigned int` (16-bit) is `Nat` truncated by `% 65536` where a shift
  can overflow 16 bits;
* global variables read by a function become explicit parameters, and
  global state written by a function becomes part of an explicit state
  record threaded through the translation;
* hardware register accesses (DAC write, gate pins, DIN pin, EIFR flag)
  become explicit inputs/outputs of the step functions.
-/

namespace KQ

/-- byte truncation of a signed C expression (two's complement, mod 256). -/
def byteOfInt (x : Int) : Nat := (x.emod 256).toNat

/-! ### hardware.h: the mod12 lookup table and intmap -/

/-- The 64-entry lookup table of hardware.h used by the `mod12` macro. -/
def mod12table : List Nat :=
  [0,0,0,12,12,12,24,24,24,36,36,36,48,48,48,60,60,60,72,72,72,84,84,84,
   96,96,96,108,108,108,120,120,120,132,132,132,144,144,144,156,156,156,
   168,168,168,180,180,180,192,192,192,204,204,204,216,216,216,228,228,228,
   240,240,240,252]

/-- The `mod12(value)` macro: `value - mod12table[value >> 2]`.  The C table
has 64 entries, so the macro is defined for arguments below 256; for the
out-of-range arguments (256..263 can be produced by `mod12(note + 8)` when
`note >= 248`) the C code reads past the array and the behaviour is
undefined; the embedding totalises that corner with `getD 0`. -/
def mod12 (v : Nat) : Nat := v - mod12table.getD (v >>> 2) 0

/-- Truncation of a C `int` intermediate to the signed 16-bit two's
complement value the AVR target computes. -/
def wrap16 (x : Int) : Int := (x + 32768) % 65536 - 32768

/-- `intmap` from hardware.h; C `/` on int is truncated division, and on
the AVR target `int` is 16 bits wide, so every intermediate (in particular
the product, which overflows for the upper gate-length table differences)
is truncated with `wrap16`. -/
def intmap (x inMin inMax outMin outMax : Int) : Int :=
  wrap16 (wrap16 (Int.tdiv (wrap16 (wrap16 (x - inMin) * wrap16 (outMax - outMin)))
    (wrap16 (inMax - inMin))) + outMin)

/-! ### Core.ino: system constants -/

def quartertone : Int := 4
def hysteresis : Int := 1
def gatedelay : Int := 2
def triggerdebounce : Int := 6
def triggerautotime : Int := 10000
def triggerdelayscale : Nat := 5
def gatelengths : List Int :=
  [5, 50, 85, 144, 245, 416, 707, 1201, 2040, 3466, 5887, 10000]

/-! ### Quantize.ino: the quantization algorithms

Each function takes the 16-bit `rotatedscale` global as an explicit first
parameter and the ADC sample (C `int`) as second parameter, and returns the
C `byte` result. -/

/-- `note = (adcval + quartertone) >> 3` (arithmetic shift = floor division),
assigned to a byte. -/
def noteOf (adcval : Int) : Nat := byteOfInt ((adcval + quartertone).fdiv 8)

/-- `r = adcval & 0b111`: the low three bits of the two's complement value. -/
def remOf (adcval : Int) : Nat := (adcval.emod 8).toNat

/-- `scalenote = mod12(note + 8)`. -/
def scalenoteOf (adcval : Int) : Nat := mod12 (noteOf adcval + 8)

/-- The scale-bit test performed by the scanning loops of Quantize.ino:
after `j` left shifts of the 16-bit local copy of the scale, the loop tests
`localscale & (1<<15)`, i.e. bit `15 - j` of the original word. -/
def enabledAt (scale j : Nat) : Bool := Nat.testBit ((scale <<< j) % 65536) 15

/-- First-loop result of `quantizeNearest`: `ll`, the lowest enabled note
index strictly before `scalenote` (255 when there is none). -/
def llOf (scale sn : Nat) : Nat :=
  ((List.range sn).find? (fun j => enabledAt scale j)).getD 255

/-- Second-loop result of `quantizeNearest`: `lh`, the last enabled note
index strictly before `scalenote` (255 when there is none).  The C loop
resumes at the `break` position of the first loop, so it records the last
enabled index in `[ll, scalenote)`, which equals the last enabled index in
`[0, scalenote)`. -/
def lhOf (scale sn : Nat) : Nat :=
  (((List.range sn).filter (fun j => enabledAt scale j)).getLast?).getD 255

/-- Third-loop result of `quantizeNearest`: `hl`, the first enabled note
index strictly after `scalenote` and below 12 (255 when there is none). -/
def hlOf (scale sn : Nat) : Nat :=
  ((List.range' (sn + 1) (12 - (sn + 1))).find? (fun j => enabledAt scale j)).getD 255

/-- Fourth-loop result of `quantizeNearest`: `hh`, the last enabled note
index strictly after `scalenote` and below 12 (255 when there is none). -/
def hhOf (scale sn : Nat) : Nat :=
  (((List.range' (sn + 1) (12 - (sn + 1))).filter (fun j => enabledAt scale j)).getLast?).getD 255

/-- Distance in semitones to the previous enabled tone (Quantize.ino 85-93),
computed in byte arithmetic. -/
def prevOf (scale sn : Nat) : Nat :=
  if lhOf scale sn = 255 then
    if hhOf scale sn = 255 then 12 else (sn + 12 - hhOf scale sn) % 256
  else sn - lhOf scale sn

/-- Distance in semitones to the next enabled tone (Quantize.ino 95-103),
computed in byte arithmetic. -/
def nextOf (scale sn : Nat) : Nat :=
  if hlOf scale sn = 255 then
    if llOf scale sn = 255 then 12 else (12 + llOf scale sn + 256 - sn) % 256
  else hlOf scale sn - sn

/-- Quantization mode 0 (`quantizeNearest`). -/
def quantizeNearest (scale : Nat) (adcval : Int) : Nat :=
  let note := noteOf adcval
  let r := remOf adcval
  let sn := scalenoteOf adcval
  if scale = 0 then 255
  else
    if enabledAt scale sn then note
    else if nextOf scale sn < prevOf scale sn ∨
            (nextOf scale sn = prevOf scale sn ∧ r < 4) then
      (note + nextOf scale sn) % 256
    else
      (note + 256 - prevOf scale sn) % 256

/-- Quantization mode 1 (`quantizeSkip`). -/
def quantizeSkip (scale : Nat) (adcval : Int) : Nat :=
  if scale = 0 then 255
  else
    let note := noteOf adcval
    let sn := scalenoteOf adcval
    if enabledAt scale sn then note else 255

/-- The note-collecting loop of `quantizeEqual` (Quantize.ino 175-184):
iterates `n` more times with current shifted scale word `ls` and loop
counter `j`, appending each enabled index. -/
def collectNotes (ls j : Nat) : Nat → List Nat
  | 0 => []
  | n + 1 =>
      (if Nat.testBit ls 15 then [j] else []) ++
        collectNotes ((ls <<< 1) % 65536) (j + 1) n

/-- Quantization mode 2 (`quantizeEqual`). -/
def quantizeEqual (scale : Nat) (adcval : Int) : Nat :=
  let note := noteOf adcval
  let r := remOf adcval
  let sn := scalenoteOf adcval
  let noteoffset := (note + 256 - sn) % 256
  if scale = 0 then 255
  else
    let notes := collectNotes scale 0 12
    let numnotes := notes.length
    let scalenotehighres := ((sn <<< 3) + r) % 256
    let x := scalenotehighres * numnotes
    let index := x / 96
    (noteoffset + notes.getD index 0) % 256

/-- Ascending enumeration of the enabled note indices of a rotated scale
word, as the spec describes it (the enabled `j < 12`, in ascending order). -/
def enabledNotesAsc (scale : Nat) : List Nat :=
  (List.range 12).filter (fun j => enabledAt scale j)

/-! ### Core.ino: scale rotation and gate length -/

/-- The rotation computation in the body of `updateRotation` (Core.ino
99-101), parameterized by the combined rotation amount: for a nonzero
rotation the 16-bit scale word is rotated through `>> rotation` and
`<< (12 - rotation)` (the left shift wraps at 16 bits) and masked with
0xFFF0; rotation 0 passes the word through unchanged. -/
def rotateScale (scale rotation : Nat) : Nat :=
  if 0 < rotation then
    ((scale >>> rotation) ||| ((scale <<< (12 - rotation)) % 65536)) &&& 0xFFF0
  else scale

/-- `updateGatelength` (Core.ino 106-115) as a function of the configured
index, the auxiliary CV index and the auxiliary CV remainder. -/
def updateGatelength (gatelengthindex : Nat) (cvgatelengthindex cvgatelengthremainder : Int) :
    Int :=
  let i : Int := (gatelengthindex : Int) + cvgatelengthindex
  if i < 0 then gatelengths.getD 0 0
  else if 10 < i then gatelengths.getD 11 0
  else
    wrap16 (gatelengths.getD i.toNat 0 +
      intmap cvgatelengthremainder 0 39 0
        (gatelengths.getD (i.toNat + 1) 0 - gatelengths.getD i.toNat 0))

/-! ### Core.ino / UI.ino / SaveRecall.ino: global state -/

/-- The global system state touched by `updateRotation`, `resetCVState`,
`keyDownEvent` (cvA/cvB menus) and the SaveRecall scale operations.
`gatelength` is the cached output of `updateGatelength`; note that
`resetCVState` zeroes the CV gate-length overlay without recomputing
`gatelength` (faithful to the source). -/
structure GState where
  scale : Nat
  gatelengthindex : Nat
  rotatesemitones : Int
  cvmode0 : Nat
  cvmode1 : Nat
  mode : Nat
  rotatesemitonesCV : Nat
  transposesemitonesCV0 : Int
  transposesemitonesCV1 : Int
  offsetsemitonesCV0 : Int
  offsetsemitonesCV1 : Int
  cvgatelengthindex : Int
  cvgatelengthremainder : Int
  rotatedscale : Nat
  gatelength : Int
  autosavecounter : Nat
  deriving DecidableEq, Repr

/-- Mode enum values (Core.ino 14-29). -/
def modeNormal : Nat := 0
def modeCvA : Nat := 9
def modeCvB : Nat := 10

/-- CV mode `cvoff` (Core.ino 40). -/
def cvoff : Nat := 255

/-- Key numbers and limits from UI.ino. -/
def keyCvA : Nat := 10
def keyCvB : Nat := 11
def keyLoad : Nat := 12
def keyHome : Nat := 15
def maxCVMode : Nat := 5
def autosavetime : Nat := 10000

/-- The `mod12` macro applied to a C `int` argument (as in `updateRotation`
and `processCV`): `value - mod12table[value >> 2]` with an arithmetic right
shift.  A negative argument indexes before the table (undefined in C); the
embedding totalises that corner by clamping the index to 0. -/
def mod12i (v : Int) : Int := v - (mod12table.getD (v.fdiv 4).toNat 0 : Int)

/-- `updateRotation` (Core.ino 96-103): combines the base rotation and the
CV rotation overlay mod 12 and recomputes `rotatedscale`. -/
def updateRotation (g : GState) : GState :=
  let rotation := byteOfInt (mod12i (g.rotatesemitones + (g.rotatesemitonesCV : Int)))
  { g with rotatedscale := rotateScale g.scale rotation }

/-- `resetCVState` (Core.ino 118-125). -/
def resetCVState (i : Nat) (g : GState) : GState :=
  let g1 := updateRotation { g with rotatesemitonesCV := 0 }
  { g1 with
    transposesemitonesCV0 := if i = 0 then 0 else g1.transposesemitonesCV0,
    transposesemitonesCV1 := if i = 1 then 0 else g1.transposesemitonesCV1,
    offsetsemitonesCV0 := if i = 0 then 0 else g1.offsetsemitonesCV0,
    offsetsemitonesCV1 := if i = 1 then 0 else g1.offsetsemitonesCV1,
    cvgatelengthindex := 0,
    cvgatelengthremainder := 0 }

/-- The cvA and cvB menu cases of `keyDownEvent` (UI.ino; the cases the
claims concern).  Any other menu mode is returned unchanged here; the
remaining cases of the switch do not touch the CV overlay state. -/
def keyDownEventCV (g : GState) (key : Nat) : GState :=
  if g.mode = modeCvA then
    if key ≤ maxCVMode ∨ key = keyLoad then
      let g1 := resetCVState 0 { g with cvmode0 := key }
      { g1 with autosavecounter := autosavetime }
    else if key = keyCvA then
      let g1 := resetCVState 0 { g with cvmode0 := cvoff }
      { g1 with autosavecounter := autosavetime }
    else if key = keyHome then { g with mode := modeNormal }
    else g
  else if g.mode = modeCvB then
    if key ≤ maxCVMode ∨ key = keyLoad then
      let g1 := resetCVState 1 { g with cvmode1 := key }
      { g1 with autosavecounter := autosavetime }
    else if key = keyCvB then
      let g1 := resetCVState 1 { g with cvmode1 := cvoff }
      { g1 with autosavecounter := autosavetime }
    else if key = keyHome then { g with mode := modeNormal }
    else g
  else g

/-! ### SaveRecall.ino: scale banks

The EEPROM is modelled as an address-to-byte map.  `eebusy` only guards
real-time interleavings of EEPROM writes; within one call it is set and
cleared again, so it does not appear in the sequential model. -/

def eeAddrSavedScales : Nat := 0x100
def eeSizeSavedScales : Nat := 0x10

/-- `EEPROM.put` of an `unsigned int` (two bytes, low byte first). -/
def eePut16 (ee : Nat → Nat) (addr v : Nat) : Nat → Nat :=
  fun a => if a = addr then v % 256 else if a = addr + 1 then v / 256 % 256 else ee a

/-- `EEPROM.get` of an `unsigned int`. -/
def eeGet16 (ee : Nat → Nat) (addr : Nat) : Nat :=
  ee addr % 256 + 256 * (ee (addr + 1) % 256)

/-- Global state plus the EEPROM contents. -/
structure SysState where
  g : GState
  ee : Nat → Nat

/-- `saveScale(index, tscale)` (SaveRecall.ino 75-82). -/
def saveScale (s : SysState) (index : Nat) (tscale : Nat) : SysState :=
  if index < 12 then
    { s with ee := eePut16 s.ee (eeAddrSavedScales + index * eeSizeSavedScales) (tscale % 65536) }
  else s

/-- `loadScale(index)` (SaveRecall.ino 84-92). -/
def loadScale (s : SysState) (index : Nat) : SysState :=
  if index < 12 then
    let tscale := eeGet16 s.ee (eeAddrSavedScales + index * eeSizeSavedScales)
    { s with g := updateRotation { s.g with scale := tscale, rotatesemitones := 0 } }
  else s

/-! ### Core.ino: processChannel

The globals read by `processChannel` are gathered in `QEnv`; the per-channel
static state (plus the gate output pin for the channel and the global
`keyboardtriggered` byte, both mutated here) in `ChState`.  The hardware
effects are explicit: `dac` is the value written by `setDAC` (none if no
write), `din` is the `DIN_READ(i)` level, `eifr` the channel's external
interrupt flag, and `eifrCleared` records that the flag was cleared. -/

structure QEnv where
  modeKeyboard : Bool
  keyboardsemitones : Int
  keyboardoctaves : Int
  offsetsemitones : Int
  offsetBsemitones : Int
  transposesemitones : Int
  transposeBsemitones : Int
  offsetsemitonesCV0 : Int
  offsetsemitonesCV1 : Int
  transposesemitonesCV0 : Int
  transposesemitonesCV1 : Int
  qmode : Nat
  gatelegato : Bool
  triggerdelaysetting : Nat
  rotatedscale : Nat
  gatelength : Int
  deriving DecidableEq, Repr

structure ChState where
  outval : Nat
  lastgateoutval : Nat
  gatecounter : Int
  freerunning : Bool
  triggercounter : Int
  triggerdelay : Nat
  gate : Bool
  keyboardtriggered : Nat
  deriving DecidableEq, Repr

structure ChResult where
  st : ChState
  dac : Option Nat
  gateOnFired : Bool
  eifrCleared : Bool
  deriving DecidableEq, Repr

def offsetCVOf (env : QEnv) (i : Nat) : Int :=
  if i = 0 then env.offsetsemitonesCV0 else env.offsetsemitonesCV1

def transposeCVOf (env : QEnv) (i : Nat) : Int :=
  if i = 0 then env.transposesemitonesCV0 else env.transposesemitonesCV1

/-- Hysteresis adjustment (Core.ino 138-149): applied only in free-running
mode; `hysteresis` is subtracted when the sample is above the last output
(scaled to ADC units) and `hysteresis - 1` added when below. -/
def hystValue (st : ChState) (newadcval : Int) : Int :=
  let oldval : Int := (st.outval : Int) * 8
  if st.freerunning then
    if oldval < newadcval then newadcval - hysteresis
    else if newadcval < oldval then newadcval + (hysteresis - 1)
    else newadcval
  else newadcval

/-- The quantizer input (Core.ino 158-162): hysteresis-adjusted sample plus
the offset modulation shifted to ADC units, plus the channel-B offset. -/
def quantInput (i : Nat) (env : QEnv) (st : ChState) (newadcval : Int) : Int :=
  hystValue st newadcval + (env.offsetsemitones + offsetCVOf env i) * 8 +
    (if i = 1 then env.offsetBsemitones * 8 else 0)

/-- The non-keyboard candidate (Core.ino 163-173): quantization followed by
transpose modulation and the constant -1, in byte arithmetic. -/
def candidateNonKb (i : Nat) (env : QEnv) (st : ChState) (newadcval : Int) : Nat :=
  let q :=
    if env.qmode = 0 then quantizeNearest env.rotatedscale (quantInput i env st newadcval)
    else if env.qmode = 1 then quantizeSkip env.rotatedscale (quantInput i env st newadcval)
    else quantizeEqual env.rotatedscale (quantInput i env st newadcval)
  byteOfInt ((q : Int) + env.transposesemitones + transposeCVOf env i - 1 +
    (if i = 1 then env.transposeBsemitones else 0))

/-- The keyboard-mode candidate (Core.ino 155): byte arithmetic on the
casts of the signed keyboard semitone/octave selections. -/
def candidateKb (env : QEnv) : Nat :=
  byteOfInt (63 + env.keyboardsemitones.emod 256 + (12 * env.keyboardoctaves).emod 256)

/-- Candidate selection and trigger decision (Core.ino 151-179).  Returns
the candidate, the trig flag and the (possibly cleared) trigger delay:
outside keyboard mode a candidate below 128 can trigger, while a candidate
at or above 128 never triggers and also disarms a pending delayed trigger. -/
def candidateStep (i : Nat) (env : QEnv) (st : ChState) (newadcval : Int) :
    Nat × Bool × Nat :=
  if env.modeKeyboard then
    (candidateKb env, decide (0 < st.keyboardtriggered), st.triggerdelay)
  else
    let c := candidateNonKb i env st newadcval
    if c < 128 then
      (c, (st.freerunning && decide (c ≠ st.outval)) || decide (st.triggerdelay = 1),
        st.triggerdelay)
    else
      (c, false, if st.triggerdelay = 1 then 0 else st.triggerdelay)

/-- Acceptance (Core.ino 183-204): on trig the output value and DAC are
updated, the gate is forced off unless legato, the gate delay counter is
started and the keyboard trigger byte is decremented (wrapping). -/
def acceptStep (env : QEnv) (st : ChState) (candidate : Nat) (trig : Bool) (td1 : Nat) :
    ChState × Option Nat :=
  if trig then
    ({ st with outval := candidate,
               gate := if env.gatelegato then st.gate else false,
               gatecounter := -gatedelay,
               triggerdelay := 0,
               keyboardtriggered := (st.keyboardtriggered + 255) % 256 }, some candidate)
  else ({ st with triggerdelay := td1 }, none)

/-- Gate transitions (Core.ino 206-223): turn-on when the delay elapses,
suppressed when the output equals the value that produced the previous
gate; turn-off when the gate length elapses; counter increment. -/
def gateStep (env : QEnv) (st : ChState) : ChState × Bool :=
  let st1 :=
    if st.gatecounter = 0 ∧ st.outval ≠ st.lastgateoutval then
      { st with gate := true, lastgateoutval := st.outval }
    else st
  let st2 := if st1.gatecounter = env.gatelength then { st1 with gate := false } else st1
  let st3 :=
    if st2.gatecounter ≤ env.gatelength then { st2 with gatecounter := st2.gatecounter + 1 }
    else st2
  (st3, decide (st.gatecounter = 0 ∧ st.outval ≠ st.lastgateoutval))

/-- Trigger input and mode bookkeeping (Core.ino 226-266). -/
def triggerStep (env : QEnv) (st : ChState) (din eifr : Bool) : ChState × Bool :=
  if st.freerunning then
    (if din then { st with freerunning := false, triggercounter := 0 } else st, false)
  else
    if eifr then
      let st1 :=
        if 0 ≤ st.triggercounter then
          { st with triggerdelay := (1 + triggerdelayscale * env.triggerdelaysetting) % 256 }
        else st
      ({ st1 with triggercounter := -triggerdebounce }, true)
    else
      let st1 := if 1 < st.triggerdelay then { st with triggerdelay := st.triggerdelay - 1 } else st
      (if din = false then
         if st1.triggercounter ≤ triggerautotime then
           { st1 with triggercounter := st1.triggercounter + 1 }
         else { st1 with freerunning := true }
       else
         if st1.triggercounter < 0 then { st1 with triggercounter := st1.triggercounter + 1 }
         else st1, false)

/-- One invocation of `processChannel` (Core.ino 129-267). -/
def processChannel (i : Nat) (env : QEnv) (st : ChState) (newadcval : Int) (din eifr : Bool) :
    ChResult :=
  let ctd := candidateStep i env st newadcval
  let sd := acceptStep env st ctd.1 ctd.2.1 ctd.2.2
  let sf := gateStep env sd.1
  let sc := triggerStep env sf.1 din eifr
  ⟨sc.1, sd.2, sf.2, sc.2⟩

/-! ### Concrete test fixtures

`44368 = 0b1010110101010000` is the default major-scale word of Core.ino
(enabled note indices 0, 2, 4, 5, 7, 9, 11).  `65520 = 0xFFF0` is the scale
with all twelve notes enabled. -/

/-- Keyboard mode at semitone 11, octave +5, with a pending keyboard
trigger. -/
def kbEnv : QEnv := ⟨true, 11, 5, 0, 0, 0, 0, 0, 0, 0, 0, 0, false, 0, 44368, 5⟩

/-- Normal mode, nearest quantization, all-notes scale, neutral modulation. -/
def normalEnv : QEnv := ⟨false, 0, 0, 0, 0, 0, 0, 0, 0, 0, 0, 0, false, 0, 65520, 5⟩

/-- Normal mode with the empty rotated scale (every candidate is 254). -/
def emptyScaleEnv : QEnv := ⟨false, 0, 0, 0, 0, 0, 0, 0, 0, 0, 0, 0, false, 0, 0, 5⟩

/-- Idle free-running channel state. -/
def idleSt : ChState := ⟨0, 0, 5, true, 0, 0, false, 2⟩

/-- Triggered-mode channel state with a one-sample-delayed trigger armed. -/
def armedSt : ChState := ⟨0, 0, 1, false, 0, 1, false, 0⟩

/-- Channel state whose gate settling delay elapses this sample with a new
output value pending. -/
def gateDueSt : ChState := ⟨5, 0, 0, false, 0, 0, false, 0⟩

/-- Global state sitting in the cvA menu with non-neutral CV overlays. -/
def cvMenuSt : GState := ⟨44368, 0, 3, 255, 255, 9, 4, 7, 8, 9, 10, 2, 17, 999, 123, 0⟩

/-- System state with an erased EEPROM. -/
def sysFix : SysState := ⟨cvMenuSt, fun _ => 0⟩

/-! ## Helper lemmas -/

theorem wrap16_eq_self (x : Int) (h1 : -32768 ≤ x) (h2 : x ≤ 32767) : wrap16 x = x := by
  unfold wrap16
  omega

theorem wrap16_cast_eq_self (n : Nat) (h : n ≤ 32767) : wrap16 (n : Int) = (n : Int) := by
  unfold wrap16
  omega

theorem intmap_of_bounded (rem d : Nat) (hrem : rem ≤ 39) (hd : d ≤ 32767)
    (hb : rem * d ≤ 32767) :
    intmap (rem : Int) 0 39 0 (d : Int) = ((rem * d / 39 : Nat) : Int) := by
  unfold intmap
  rw [show ((rem : Int) - 0) = (rem : Int) by ring, show ((d : Int) - 0) = (d : Int) by ring,
    show ((39 : Int) - 0) = (39 : Int) by ring]
  rw [wrap16_cast_eq_self rem (by omega), wrap16_cast_eq_self d hd,
    wrap16_eq_self (39 : Int) (by norm_num) (by norm_num)]
  rw [show (rem : Int) * (d : Int) = ((rem * d : Nat) : Int) by push_cast; ring]
  rw [wrap16_cast_eq_self (rem * d) hb]
  rw [show Int.tdiv ((rem * d : Nat) : Int) 39 = ((rem * d / 39 : Nat) : Int) from rfl]
  rw [wrap16_cast_eq_self (rem * d / 39) (by omega)]
  rw [Int.add_zero]
  rw [wrap16_cast_eq_self (rem * d / 39) (by omega)]

theorem c9_case (rem a d : Nat) (hrem : rem ≤ 39)
    (hb : (rem : Int) * (d : Int) ≤ 32767) (hd : d ≤ 4113) (ha : a ≤ 5887) :
    wrap16 ((a : Int) + intmap (rem : Int) 0 39 0 (d : Int)) =
      (a : Int) + ((rem * d / 39 : Nat) : Int) := by
  have hbn : rem * d ≤ 32767 := by exact_mod_cast hb
  rw [intmap_of_bounded rem d hrem (by omega) hbn]
  have hq : rem * d / 39 ≤ 840 := by omega
  have h1 : ((rem * d / 39 : Nat) : Int) ≤ 840 := by exact_mod_cast hq
  have h2 : ((a : Nat) : Int) ≤ 5887 := by exact_mod_cast ha
  have h0a : (0:Int) ≤ (a : Int) := by positivity
  have h0q : (0:Int) ≤ ((rem * d / 39 : Nat) : Int) := by positivity
  apply wrap16_eq_self <;> omega

theorem updateGatelength_mid (gli : Nat) (cvi : Int) (rem : Nat) (i : Nat)
    (hi : (gli : Int) + cvi = i) (hle : i ≤ 10) :
    updateGatelength gli cvi rem =
      wrap16 (gatelengths.getD i 0 +
        intmap (rem : Int) 0 39 0 (gatelengths.getD (i + 1) 0 - gatelengths.getD i 0)) := by
  simp only [updateGatelength, hi]
  rw [if_neg (by omega), if_neg (by exact_mod_cast by omega : ¬ (10 : Int) < (i : Int))]
  norm_num

theorem and65520_eq (y : Nat) (hy : y < 65536) : y &&& 65520 = y / 16 * 16 := by
  have h1 : y / 16 * 16 = (y >>> 4) <<< 4 := by
    rw [Nat.shiftRight_eq_div_pow, Nat.shiftLeft_eq]
  rw [h1]
  apply Nat.eq_of_testBit_eq
  intro i
  rw [Nat.testBit_and, Nat.testBit_shiftLeft, Nat.testBit_shiftRight]
  by_cases h4 : 4 ≤ i
  · by_cases h16 : i < 16
    · have hm : Nat.testBit 65520 i = true := by interval_cases i <;> decide
      simp [hm, h4, show 4 + (i - 4) = i by omega]
    · have hyy : (2:Nat) ^ 16 ≤ 2 ^ i := Nat.pow_le_pow_right (by norm_num) (by omega)
      have hyf : Nat.testBit y i = false := Nat.testBit_lt_two_pow (by omega)
      have hmf : Nat.testBit 65520 i = false := Nat.testBit_lt_two_pow (by omega)
      simp [hyf, hmf, h4, show 4 + (i - 4) = i by omega]
  · have hmf : Nat.testBit 65520 i = false := by interval_cases i <;> decide
    simp [hmf, h4]

theorem rotateScale_mid (T r : Nat) (hT : T < 4096) (h1 : 1 ≤ r) (h2 : r ≤ 11) :
    rotateScale (16 * T) r = 16 * ((T % 2 ^ r) * 2 ^ (12 - r) + T / 2 ^ r) := by
  unfold rotateScale
  rw [if_pos (by omega)]
  have e1 : (16 * T) >>> r = 16 * T / 2 ^ r := Nat.shiftRight_eq_div_pow _ _
  have e2 : ((16 * T) <<< (12 - r)) % 65536 = (T % 2 ^ r) * 2 ^ (16 - r) := by
    rw [Nat.shiftLeft_eq]
    have e : 16 * T * 2 ^ (12 - r) = T * 2 ^ (16 - r) := by
      rw [Nat.mul_comm 16 T, Nat.mul_assoc]
      congr 1
      rw [show (16:Nat) = 2 ^ 4 by norm_num, ← pow_add]
      congr 1
      omega
    have h65 : (65536:Nat) = 2 ^ r * 2 ^ (16 - r) := by
      rw [← pow_add, show r + (16 - r) = 16 by omega]
      norm_num
    rw [e, h65]
    exact Nat.mul_mod_mul_right _ _ _
  have h65 : (65536:Nat) = 2 ^ r * 2 ^ (16 - r) := by
    rw [← pow_add, show r + (16 - r) = 16 by omega]
    norm_num
  have hA : 16 * T / 2 ^ r < 2 ^ (16 - r) := by
    apply Nat.div_lt_of_lt_mul
    exact lt_of_lt_of_eq (by omega : 16 * T < 65536) h65
  have e3 : (16 * T / 2 ^ r) ||| ((T % 2 ^ r) * 2 ^ (16 - r)) =
      2 ^ (16 - r) * (T % 2 ^ r) + 16 * T / 2 ^ r := by
    rw [Nat.or_comm, Nat.mul_comm (T % 2 ^ r) (2 ^ (16 - r))]
    exact (Nat.mul_add_lt_is_or hA _).symm
  rw [e1, e2, e3]
  have hmod : T % 2 ^ r < 2 ^ r := Nat.mod_lt _ (by positivity)
  have hX : 2 ^ (16 - r) * (T % 2 ^ r) + 16 * T / 2 ^ r < 65536 := by
    calc 2 ^ (16 - r) * (T % 2 ^ r) + 16 * T / 2 ^ r
        < 2 ^ (16 - r) * (T % 2 ^ r) + 2 ^ (16 - r) := Nat.add_lt_add_left hA _
      _ = 2 ^ (16 - r) * (T % 2 ^ r + 1) := by ring
      _ ≤ 2 ^ (16 - r) * 2 ^ r := Nat.mul_le_mul_left _ (by omega)
      _ = 65536 := by rw [← pow_add, show 16 - r + r = 16 by omega]; norm_num
  rw [and65520_eq _ hX]
  have e4 : (2:Nat) ^ (16 - r) = 16 * 2 ^ (12 - r) := by
    rw [show (16:Nat) = 2 ^ 4 by norm_num, ← pow_add]
    congr 1
    omega
  rw [e4, Nat.mul_assoc]
  rw [Nat.mul_add_div (by norm_num)]
  rw [Nat.div_div_eq_div_mul, Nat.mul_comm (2 ^ r) 16, ← Nat.div_div_eq_div_mul,
    Nat.mul_div_cancel_left T (by norm_num : (0:Nat) < 16)]
  ring

theorem collectNotes_eq (n : Nat) : ∀ (j scale : Nat),
    collectNotes ((scale <<< j) % 65536) j n =
      (List.range' j n).filter (fun k => enabledAt scale k) := by
  induction n with
  | zero => intro j scale; simp [collectNotes]
  | succ n ih =>
    intro j scale
    have hshift : (((scale <<< j) % 65536) <<< 1) % 65536 = (scale <<< (j + 1)) % 65536 := by
      rw [Nat.shiftLeft_eq _ 1, Nat.shiftLeft_eq scale (j + 1), Nat.shiftLeft_eq scale j,
        show (2:Nat) ^ 1 = 2 by norm_num, show (2:Nat) ^ (j + 1) = 2 ^ j * 2 from pow_succ 2 j,
        ← Nat.mul_assoc]
      conv_rhs => rw [Nat.mul_mod]
    have hrange : List.range' j (n + 1) = j :: List.range' (j + 1) n := rfl
    rw [hrange, List.filter_cons]
    show (if Nat.testBit ((scale <<< j) % 65536) 15 then [j] else []) ++
        collectNotes ((((scale <<< j) % 65536) <<< 1) % 65536) (j + 1) n = _
    rw [hshift, ih (j + 1) scale]
    by_cases h : enabledAt scale j
    · have hb : Nat.testBit ((scale <<< j) % 65536) 15 = true := h
      simp [hb, h]
    · have hb : Nat.testBit ((scale <<< j) % 65536) 15 = false := by
        simpa [enabledAt] using h
      simp [hb, h]

theorem acceptStep_lastgate (env : QEnv) (st : ChState) (c : Nat) (t : Bool) (td : Nat) :
    ((acceptStep env st c t td).1).lastgateoutval = st.lastgateoutval := by
  unfold acceptStep
  split <;> rfl

theorem acceptStep_outval_of_false (env : QEnv) (st : ChState) (c : Nat) (td : Nat) :
    ((acceptStep env st c false td).1).outval = st.outval ∧
      (acceptStep env st c false td).2 = none := by
  unfold acceptStep
  exact ⟨rfl, rfl⟩

theorem acceptStep_outval_of_true (env : QEnv) (st : ChState) (c : Nat) (td : Nat) :
    ((acceptStep env st c true td).1).outval = c ∧
      (acceptStep env st c true td).2 = some c := by
  unfold acceptStep
  exact ⟨rfl, rfl⟩

theorem gateStep_outval (env : QEnv) (st : ChState) :
    ((gateStep env st).1).outval = st.outval := by
  dsimp only [gateStep]
  repeat' split
  all_goals rfl

theorem triggerStep_outval (env : QEnv) (st : ChState) (d e : Bool) :
    ((triggerStep env st d e).1).outval = st.outval := by
  dsimp only [triggerStep]
  repeat' split
  all_goals rfl

theorem triggerStep_lastgate (env : QEnv) (st : ChState) (d e : Bool) :
    ((triggerStep env st d e).1).lastgateoutval = st.lastgateoutval := by
  dsimp only [triggerStep]
  repeat' split
  all_goals rfl

theorem gateStep_fired (env : QEnv) (st : ChState) :
    (gateStep env st).2 = true →
      st.outval ≠ st.lastgateoutval ∧ ((gateStep env st).1).lastgateoutval = st.outval := by
  intro h
  have hp : st.gatecounter = 0 ∧ st.outval ≠ st.lastgateoutval := of_decide_eq_true h
  refine ⟨hp.2, ?_⟩
  dsimp only [gateStep]
  rw [if_pos hp]
  repeat' split
  all_goals rfl

/-! ## Claim theorems -/

/-- C1 (amended): in `quantizeNearest`, when the rounded semitone is
disabled and the enabled neighbors below and above sit at equal semitone
distance, the HIGHER candidate is returned when the remainder of the
rounding step is below half a semitone (r < 4 of 8 units) and the LOWER
candidate is returned when the remainder is at least half a semitone --
the opposite of the direction the spec states. -/
theorem c1_amended_tie_break : ∀ (scale : Nat) (adcval : Int),
    scale ≠ 0 →
    enabledAt scale (scalenoteOf adcval) = false →
    nextOf scale (scalenoteOf adcval) = prevOf scale (scalenoteOf adcval) →
    (remOf adcval < 4 →
      quantizeNearest scale adcval =
        (noteOf adcval + nextOf scale (scalenoteOf adcval)) % 256) ∧
    (4 ≤ remOf adcval →
      quantizeNearest scale adcval =
        (noteOf adcval + 256 - prevOf scale (scalenoteOf adcval)) % 256) := by
  intro scale adcval hs he ht
  constructor
  · intro hr
    simp [quantizeNearest, hs, he, ht, hr]
  · intro hr
    simp [quantizeNearest, hs, he, ht, show ¬ remOf adcval < 4 by omega]

/-- C1 counterexample: on the major scale 44368 = {0,2,4,5,7,9,11}, the
sample 40 sits exactly at disabled scale position 1 with remainder 0 < 4
and equidistant enabled neighbors, yet `quantizeNearest` returns 6 (the
higher candidate, scale position 2) and not the lower candidate 4 that the
claim requires for a remainder below half a semitone. -/
theorem c1_counterexample : enabledAt 44368 (scalenoteOf 40) = false ∧
    nextOf 44368 (scalenoteOf 40) = prevOf 44368 (scalenoteOf 40) ∧
    remOf 40 < 4 ∧
    quantizeNearest 44368 40 = 6 ∧
    (noteOf 40 + nextOf 44368 (scalenoteOf 40)) % 256 = 6 ∧
    (noteOf 40 + 256 - prevOf 44368 (scalenoteOf 40)) % 256 = 4 ∧
    (6 : Nat) ≠ 4 := by
  decide

/-- C1 witness: the amended tie-break rule applied at the major scale and
sample 40. -/
theorem c1_witness : (44368 ≠ 0 ∧ enabledAt 44368 (scalenoteOf 40) = false ∧
      nextOf 44368 (scalenoteOf 40) = prevOf 44368 (scalenoteOf 40) ∧ remOf 40 < 4) ∧
    quantizeNearest 44368 40 = (noteOf 40 + nextOf 44368 (scalenoteOf 40)) % 256 :=
  ⟨⟨by decide, by decide, by decide, by decide⟩,
    (c1_amended_tie_break 44368 40 (by decide) (by decide) (by decide)).1 (by decide)⟩

/-- C2 (amended): outside keyboard mode a candidate at or above 128 is
never accepted -- the output value and the DAC keep their previous value --
and the stored output is only ever replaced by a value below 128.  (In
keyboard mode the guard is absent; see the counterexample.) -/
theorem c2_amended_never_accept : ∀ (i : Nat) (env : QEnv) (st : ChState) (adc : Int)
    (din eifr : Bool), env.modeKeyboard = false →
    (128 ≤ candidateNonKb i env st adc →
      (processChannel i env st adc din eifr).st.outval = st.outval ∧
      (processChannel i env st adc din eifr).dac = none) ∧
    ((processChannel i env st adc din eifr).st.outval < 128 ∨
      (processChannel i env st adc din eifr).st.outval = st.outval) := by
  intro i env st adc din eifr hm
  have houtval : (processChannel i env st adc din eifr).st.outval =
      ((acceptStep env st (candidateStep i env st adc).1 (candidateStep i env st adc).2.1
        (candidateStep i env st adc).2.2).1).outval := by
    show ((triggerStep env (gateStep env _).1 din eifr).1).outval = _
    rw [triggerStep_outval, gateStep_outval]
  have hdac : (processChannel i env st adc din eifr).dac =
      (acceptStep env st (candidateStep i env st adc).1 (candidateStep i env st adc).2.1
        (candidateStep i env st adc).2.2).2 := rfl
  constructor
  · intro hc
    have hcs : candidateStep i env st adc =
        (candidateNonKb i env st adc, false,
          if st.triggerdelay = 1 then 0 else st.triggerdelay) := by
      simp [candidateStep, hm, show ¬ candidateNonKb i env st adc < 128 by omega]
    constructor
    · rw [houtval, hcs]
      exact (acceptStep_outval_of_false env st _ _).1
    · rw [hdac, hcs]
      exact (acceptStep_outval_of_false env st _ _).2
  · by_cases hc : candidateNonKb i env st adc < 128
    · have hcs : candidateStep i env st adc =
          (candidateNonKb i env st adc,
            (st.freerunning && decide (candidateNonKb i env st adc ≠ st.outval)) ||
              decide (st.triggerdelay = 1), st.triggerdelay) := by
        simp [candidateStep, hm, hc]
      by_cases ht : ((st.freerunning && decide (candidateNonKb i env st adc ≠ st.outval)) ||
          decide (st.triggerdelay = 1)) = true
      · left
        rw [houtval, hcs, ht]
        rw [(acceptStep_outval_of_true env st _ _).1]
        exact hc
      · right
        have ht2 : ((st.freerunning && decide (candidateNonKb i env st adc ≠ st.outval)) ||
            decide (st.triggerdelay = 1)) = false := by
          simpa using ht
        rw [houtval, hcs, ht2]
        exact (acceptStep_outval_of_false env st _ _).1
    · right
      have hcs : candidateStep i env st adc =
          (candidateNonKb i env st adc, false,
            if st.triggerdelay = 1 then 0 else st.triggerdelay) := by
        simp [candidateStep, hm, hc]
      rw [houtval, hcs]
      exact (acceptStep_outval_of_false env st _ _).1

/-- C2 counterexample: in keyboard mode with semitone 11 and octave +5 and
a pending keyboard trigger, the candidate 63 + 11 + 60 = 134 >= 128 IS
accepted: the stored output becomes 134 and 134 is written to the DAC. -/
theorem c2_counterexample : kbEnv.modeKeyboard = true ∧
    (processChannel 0 kbEnv idleSt 0 false false).st.outval = 134 ∧
    (processChannel 0 kbEnv idleSt 0 false false).dac = some 134 ∧
    128 ≤ 134 := by
  decide

/-- C2 witness: with the empty rotated scale the candidate is 254 and the
output value and DAC hold. -/
theorem c2_witness : (emptyScaleEnv.modeKeyboard = false ∧
      128 ≤ candidateNonKb 0 emptyScaleEnv idleSt 12) ∧
    ((processChannel 0 emptyScaleEnv idleSt 12 false false).st.outval = idleSt.outval ∧
      (processChannel 0 emptyScaleEnv idleSt 12 false false).dac = none) :=
  ⟨⟨by decide, by decide⟩,
    (c2_amended_never_accept 0 emptyScaleEnv idleSt 12 false false (by decide)).1 (by decide)⟩

/-- C3: with an empty rotated scale (no notes enabled), each of
`quantizeNearest`, `quantizeSkip` and `quantizeEqual` returns the sentinel
255 >= 128 for every input sample. -/
theorem c3_empty_scale_sentinel : ∀ adcval : Int,
    quantizeNearest 0 adcval = 255 ∧ quantizeSkip 0 adcval = 255 ∧
    quantizeEqual 0 adcval = 255 ∧ 128 ≤ 255 := by
  intro a
  refine ⟨?_, ?_, ?_, by norm_num⟩ <;> simp [quantizeNearest, quantizeSkip, quantizeEqual]

/-- C4 (amended): the hysteresis adjustment is applied exactly when the
channel is in free-running mode -- `hysteresis` subtracted above the scaled
last output, `hysteresis - 1` added below it -- and is NOT applied in
triggered mode, regardless of the menu mode.  (The spec ties the
suspension to keyboard mode instead; see the counterexample.) -/
theorem c4_amended_hyst : ∀ (st : ChState) (adc : Int),
    (st.freerunning = true → (st.outval : Int) * 8 < adc →
      hystValue st adc = adc - hysteresis) ∧
    (st.freerunning = true → adc < (st.outval : Int) * 8 →
      hystValue st adc = adc + (hysteresis - 1)) ∧
    (st.freerunning = false → hystValue st adc = adc) := by
  intro st adc
  refine ⟨fun hf hlt => ?_, fun hf hlt => ?_, fun hf => ?_⟩
  · simp [hystValue, hf, hlt]
  · simp [hystValue, hf, hlt, show ¬ ((st.outval : Int) * 8 < adc) by omega]
  · simp [hystValue, hf]

/-- C4 counterexample: a triggered-mode (not free-running) channel in
normal menu mode with an armed trigger and a rising sample: the code
quantizes the raw sample 12 and outputs 1, while the claim's
hysteresis-adjusted pipeline (sample 12 - 1 = 11) would output 0. -/
theorem c4_counterexample : normalEnv.modeKeyboard = false ∧
    armedSt.freerunning = false ∧
    (processChannel 0 normalEnv armedSt 12 true false).st.outval = 1 ∧
    byteOfInt ((quantizeNearest 65520 (12 - 1) : Int) + 0 + 0 - 1) = 0 ∧
    (1 : Nat) ≠ 0 := by
  decide

/-- C4 witness: in triggered mode the quantizer input equals the raw
sample. -/
theorem c4_witness : armedSt.freerunning = false ∧ hystValue armedSt 12 = 12 :=
  ⟨by decide, (c4_amended_hyst armedSt 12).2.2 (by decide)⟩

/-- C5: for every 16-bit scale word with zero low nibble and every rotation
r in 0..11, rotating by r and then by (12 - r) mod 12 restores the word,
and every rotated scale keeps its low 4 bits zero. -/
theorem c5_rotation : ∀ S : Nat, S < 65536 → S % 16 = 0 →
    (∀ r : Nat, r < 12 → rotateScale (rotateScale S r) ((12 - r) % 12) = S) ∧
    (∀ r : Nat, rotateScale S r % 16 = 0) := by
  intro S hS hS16
  obtain ⟨T, rfl⟩ : ∃ T, S = 16 * T := ⟨S / 16, by omega⟩
  have hT : T < 4096 := by omega
  constructor
  · intro r hr
    by_cases h0 : r = 0
    · subst h0
      simp [rotateScale]
    · have h1 : 1 ≤ r := by omega
      have h2 : r ≤ 11 := by omega
      have h12 : (12 - r) % 12 = 12 - r := Nat.mod_eq_of_lt (by omega)
      have hmod : T % 2 ^ r < 2 ^ r := Nat.mod_lt _ (by positivity)
      have h4096 : (4096:Nat) = 2 ^ r * 2 ^ (12 - r) := by
        rw [← pow_add, show r + (12 - r) = 12 by omega]
        norm_num
      have hdiv : T / 2 ^ r < 2 ^ (12 - r) := by
        apply Nat.div_lt_of_lt_mul
        exact lt_of_lt_of_eq (by omega : T < 4096) h4096
      have hU : (T % 2 ^ r) * 2 ^ (12 - r) + T / 2 ^ r < 4096 := by
        calc (T % 2 ^ r) * 2 ^ (12 - r) + T / 2 ^ r
            < (T % 2 ^ r) * 2 ^ (12 - r) + 2 ^ (12 - r) := Nat.add_lt_add_left hdiv _
          _ = (T % 2 ^ r + 1) * 2 ^ (12 - r) := by ring
          _ ≤ 2 ^ r * 2 ^ (12 - r) := Nat.mul_le_mul_right _ (by omega)
          _ = 4096 := by rw [← pow_add, show r + (12 - r) = 12 by omega]; norm_num
      rw [h12, rotateScale_mid T r hT h1 h2, rotateScale_mid _ (12 - r) hU (by omega) (by omega)]
      congr 1
      rw [show 12 - (12 - r) = r by omega]
      rw [Nat.mul_comm (T % 2 ^ r) (2 ^ (12 - r))]
      rw [Nat.mul_add_mod, Nat.mod_eq_of_lt hdiv]
      rw [Nat.mul_add_div (by positivity), Nat.div_eq_of_lt hdiv, Nat.add_zero]
      rw [Nat.add_comm, Nat.mul_comm (T / 2 ^ r) (2 ^ r)]
      exact Nat.mod_add_div T (2 ^ r)
  · intro r
    by_cases h0 : 0 < r
    · unfold rotateScale
      rw [if_pos h0]
      rw [show (16:Nat) = 2 ^ 4 from by norm_num, ← Nat.and_pow_two_sub_one_eq_mod]
      rw [Nat.and_assoc, show (65520 &&& (2 ^ 4 - 1) : Nat) = 0 from by rfl, Nat.and_zero]
    · unfold rotateScale
      rw [if_neg h0]
      omega

/-- C5 witness: the round trip at the major scale word and rotation 5. -/
theorem c5_witness : ((44368:Nat) < 65536 ∧ (44368:Nat) % 16 = 0 ∧ (5:Nat) < 12) ∧
    rotateScale (rotateScale 44368 5) ((12 - 5) % 12) = 44368 :=
  ⟨⟨by decide, by decide, by decide⟩,
    (c5_rotation 44368 (by decide) (by decide)).1 5 (by decide)⟩

/-- C6: for a nonempty 16-bit rotated scale and a sample whose scale note
is in range, `quantizeEqual` computes the high-resolution octave position
p = 8*scalenote + r in 0..95 and returns the octave offset plus the enabled
note (ascending enumeration) of rank floor(p * enabledCount / 96). -/
theorem c6_equal_rank : ∀ (scale : Nat) (adcval : Int),
    scale ≠ 0 → scale < 65536 → scalenoteOf adcval < 12 →
    8 * scalenoteOf adcval + remOf adcval < 96 ∧
    quantizeEqual scale adcval =
      ((noteOf adcval + 256 - scalenoteOf adcval) % 256 +
        (enabledNotesAsc scale).getD
          ((8 * scalenoteOf adcval + remOf adcval) * (enabledNotesAsc scale).length / 96) 0) %
        256 := by
  intro scale adcval hs hlt hsn
  have hr : remOf adcval < 8 := by
    unfold remOf
    have h1 : adcval.emod 8 < 8 := Int.emod_lt_of_pos _ (by norm_num)
    have h2 : 0 ≤ adcval.emod 8 := Int.emod_nonneg _ (by norm_num)
    omega
  have hnotes : collectNotes scale 0 12 = enabledNotesAsc scale := by
    have h := collectNotes_eq 12 0 scale
    rw [Nat.shiftLeft_zero, Nat.mod_eq_of_lt hlt] at h
    rw [h, enabledNotesAsc, List.range_eq_range']
  have hhig : ((scalenoteOf adcval <<< 3) + remOf adcval) % 256 =
      8 * scalenoteOf adcval + remOf adcval := by
    rw [Nat.shiftLeft_eq, show (2:Nat) ^ 3 = 8 by norm_num, Nat.mul_comm]
    exact Nat.mod_eq_of_lt (by omega)
  refine ⟨by omega, ?_⟩
  simp only [quantizeEqual, hs, if_false, hnotes, hhig]

/-- C6 witness: on the major scale (7 enabled notes), the sample 82 has
octave position 50, rank floor(50*7/96) = 3, selects the 4th enabled note
5, and returns 9. -/
theorem c6_witness : ((44368:Nat) ≠ 0 ∧ (44368:Nat) < 65536 ∧ scalenoteOf 82 < 12) ∧
    quantizeEqual 44368 82 =
      ((noteOf 82 + 256 - scalenoteOf 82) % 256 +
        (enabledNotesAsc 44368).getD
          ((8 * scalenoteOf 82 + remOf 82) * (enabledNotesAsc 44368).length / 96) 0) % 256 ∧
    8 * scalenoteOf 82 + remOf 82 = 50 ∧ (enabledNotesAsc 44368).length = 7 ∧
    50 * 7 / 96 = 3 ∧ (enabledNotesAsc 44368).getD 3 0 = 5 ∧ quantizeEqual 44368 82 = 9 :=
  ⟨⟨by decide, by decide, by decide⟩,
    (c6_equal_rank 44368 82 (by decide) (by decide) (by decide)).2,
    by decide, by decide, by decide, by decide, by decide⟩

/-- C7: reassigning auxiliary input i's CV mode from the cvA/cvB menu
(any reassignment key: an effect mode 0..5, scale recall, or off) zeroes
the rotation overlay, that input's transpose and offset overlays, and the
gate-length overlay index and remainder, and recomputes the rotated scale
from the base rotation alone, leaving the base scale unchanged. -/
theorem c7_cv_reassign_resets : ∀ (g : GState) (key : Nat),
    ((g.mode = modeCvA ∧ (key ≤ maxCVMode ∨ key = keyLoad ∨ key = keyCvA)) ∨
     (g.mode = modeCvB ∧ (key ≤ maxCVMode ∨ key = keyLoad ∨ key = keyCvB))) →
    (keyDownEventCV g key).rotatesemitonesCV = 0 ∧
    (g.mode = modeCvA → (keyDownEventCV g key).transposesemitonesCV0 = 0 ∧
      (keyDownEventCV g key).offsetsemitonesCV0 = 0) ∧
    (g.mode = modeCvB → (keyDownEventCV g key).transposesemitonesCV1 = 0 ∧
      (keyDownEventCV g key).offsetsemitonesCV1 = 0) ∧
    (keyDownEventCV g key).cvgatelengthindex = 0 ∧
    (keyDownEventCV g key).cvgatelengthremainder = 0 ∧
    (keyDownEventCV g key).scale = g.scale ∧
    (keyDownEventCV g key).rotatedscale =
      rotateScale g.scale (byteOfInt (mod12i g.rotatesemitones)) := by
  intro g key h
  rcases h with ⟨hm, hk | hk | hk⟩ | ⟨hm, hk | hk | hk⟩
  · have hk' : key ≤ 5 := hk
    simp [keyDownEventCV, hm, hk', modeCvA, modeCvB, keyCvA, keyLoad, maxCVMode,
      resetCVState, updateRotation]
  · subst hk
    simp [keyDownEventCV, hm, modeCvA, modeCvB, keyCvA, keyLoad, maxCVMode, cvoff,
      resetCVState, updateRotation]
  · subst hk
    simp [keyDownEventCV, hm, modeCvA, modeCvB, keyCvA, keyLoad, keyHome, maxCVMode, cvoff,
      resetCVState, updateRotation]
  · have hk' : key ≤ 5 := hk
    simp [keyDownEventCV, hm, hk', modeCvA, modeCvB, keyCvB, keyLoad, maxCVMode,
      resetCVState, updateRotation]
  · subst hk
    simp [keyDownEventCV, hm, modeCvA, modeCvB, keyCvB, keyLoad, maxCVMode, cvoff,
      resetCVState, updateRotation]
  · subst hk
    simp [keyDownEventCV, hm, modeCvA, modeCvB, keyCvB, keyLoad, keyHome, maxCVMode, cvoff,
      resetCVState, updateRotation]

/-- C7 witness: assigning CV mode 3 from the cvA menu on a state with
non-neutral overlays. -/
theorem c7_witness : ((cvMenuSt.mode = modeCvA ∧
      ((3:Nat) ≤ maxCVMode ∨ (3:Nat) = keyLoad ∨ (3:Nat) = keyCvA)) ∨
     (cvMenuSt.mode = modeCvB ∧
      ((3:Nat) ≤ maxCVMode ∨ (3:Nat) = keyLoad ∨ (3:Nat) = keyCvB))) ∧
    (keyDownEventCV cvMenuSt 3).rotatesemitonesCV = 0 ∧
    (keyDownEventCV cvMenuSt 3).rotatedscale =
      rotateScale cvMenuSt.scale (byteOfInt (mod12i cvMenuSt.rotatesemitones)) :=
  ⟨Or.inl ⟨by decide, Or.inl (by decide)⟩,
    (c7_cv_reassign_resets cvMenuSt 3 (Or.inl ⟨by decide, Or.inl (by decide)⟩)).1,
    (c7_cv_reassign_resets cvMenuSt 3 (Or.inl ⟨by decide, Or.inl (by decide)⟩)).2.2.2.2.2.2⟩

/-- C8: whenever a `processChannel` step fires the gate on (the settling
delay elapsed), the output value at that moment differs from the value
that produced the previous gate, and the fired value is recorded; so a
gate never turns on while the output equals the previous gate's value. -/
theorem c8_gate_suppression : ∀ (i : Nat) (env : QEnv) (st : ChState) (adc : Int)
    (din eifr : Bool),
    (processChannel i env st adc din eifr).gateOnFired = true →
    (processChannel i env st adc din eifr).st.outval ≠ st.lastgateoutval ∧
    (processChannel i env st adc din eifr).st.lastgateoutval =
      (processChannel i env st adc din eifr).st.outval := by
  intro i env st adc din eifr h
  set st1 := (acceptStep env st (candidateStep i env st adc).1 (candidateStep i env st adc).2.1
    (candidateStep i env st adc).2.2).1 with hst1
  have hfired : (gateStep env st1).2 = true := h
  have hg := gateStep_fired env st1 hfired
  have hlast1 : st1.lastgateoutval = st.lastgateoutval := acceptStep_lastgate env st _ _ _
  constructor
  · show (triggerStep env (gateStep env st1).1 din eifr).1.outval ≠ st.lastgateoutval
    rw [triggerStep_outval, gateStep_outval]
    rw [← hlast1]
    exact hg.1
  · show (triggerStep env (gateStep env st1).1 din eifr).1.lastgateoutval =
      (triggerStep env (gateStep env st1).1 din eifr).1.outval
    rw [triggerStep_outval, gateStep_outval, triggerStep_lastgate, hg.2]

/-- C8 witness: a step whose settling delay elapses with output 5 against
previous gate value 0 fires the gate, and the fired output differs from
the previous gate value. -/
theorem c8_witness : (processChannel 0 emptyScaleEnv gateDueSt 0 false false).gateOnFired = true ∧
    (processChannel 0 emptyScaleEnv gateDueSt 0 false false).st.outval ≠
      gateDueSt.lastgateoutval :=
  ⟨by decide, (c8_gate_suppression 0 emptyScaleEnv gateDueSt 0 false false (by decide)).1⟩

/-- C9 (amended): `updateGatelength` clamps a negative combined index to
the first table entry and a combined index above 10 to the last; otherwise
it interpolates linearly -- table[i] plus floor(remainder * (table[i+1] -
table[i]) / 39) for a remainder in 0..39 -- PROVIDED the product
remainder * (table[i+1] - table[i]) fits in a signed 16-bit int (at most
32767); the 16-bit multiply wraps beyond that (reachable at combined
indices 8..10), and the program's result then deviates from the formula. -/
theorem c9_gatelength : ∀ (gli : Nat) (cvi : Int) (rem : Nat), rem ≤ 39 →
    ((gli : Int) + cvi < 0 → updateGatelength gli cvi rem = 5) ∧
    (10 < (gli : Int) + cvi → updateGatelength gli cvi rem = 10000) ∧
    (∀ i : Nat, (gli : Int) + cvi = i → i ≤ 10 →
      (rem : Int) * (gatelengths.getD (i + 1) 0 - gatelengths.getD i 0) ≤ 32767 →
      updateGatelength gli cvi rem =
        gatelengths.getD i 0 +
          ((rem * ((gatelengths.getD (i + 1) 0).toNat - (gatelengths.getD i 0).toNat)) / 39 :
            Nat)) := by
  intro gli cvi rem hrem
  refine ⟨fun h => ?_, fun h => ?_, fun i hi hle hbound => ?_⟩
  · simp only [updateGatelength]
    rw [if_pos h]
    rfl
  · simp only [updateGatelength]
    rw [if_neg (by omega), if_pos h]
    rfl
  · rw [updateGatelength_mid gli cvi rem i hi hle]
    interval_cases i <;> exact c9_case rem _ _ hrem hbound (by norm_num) (by norm_num)

/-- C9 counterexample: at combined index 10 with remainder 39 the 16-bit
product 39 * 4113 = 160407 wraps to 29335, so the program yields
5887 + tdiv(29335, 39) = 6639, while the claim's interpolation formula
gives 5887 + 4113 = 10000. -/
theorem c9_counterexample : updateGatelength 10 0 39 = 6639 ∧
    gatelengths.getD 10 0 +
      ((39 * ((gatelengths.getD 11 0).toNat - (gatelengths.getD 10 0).toNat)) / 39 : Nat) =
      10000 ∧
    (6639 : Int) ≠ 10000 := by
  decide

/-- C9 witness: index 0, remainder 20 (product 900 in range) yields
5 + floor(20*45/39) = 28. -/
theorem c9_witness : ((20:Nat) ≤ 39 ∧
      (20 : Int) * (gatelengths.getD 1 0 - gatelengths.getD 0 0) ≤ 32767) ∧
    updateGatelength 0 0 20 =
      gatelengths.getD 0 0 +
        ((20 * ((gatelengths.getD 1 0).toNat - (gatelengths.getD 0 0).toNat)) / 39 : Nat) ∧
    updateGatelength 0 0 20 = 28 :=
  ⟨⟨by decide, by decide⟩,
    (c9_gatelength 0 0 20 (by decide)).2.2 0 (by decide) (by decide) (by decide), by decide⟩

/-- C10: `loadScale` and `saveScale` are no-ops for every bank index at or
above 12: the whole system state (globals and EEPROM) is unchanged. -/
theorem c10_out_of_range_banks : ∀ (s : SysState) (index tscale : Nat), 12 ≤ index →
    loadScale s index = s ∧ saveScale s index tscale = s := by
  intro s i t h
  constructor <;> simp [loadScale, saveScale, show ¬ i < 12 by omega]

/-- C10 witness: bank index 12 on a concrete system state. -/
theorem c10_witness : (12 ≤ 12) ∧ loadScale sysFix 12 = sysFix ∧
    saveScale sysFix 12 44368 = sysFix :=
  ⟨by decide, (c10_out_of_range_banks sysFix 12 44368 (by decide)).1,
    (c10_out_of_range_banks sysFix 12 44368 (by decide)).2⟩

end KQ
